import Mathlib

/-!
Verification development for the github-sentry repository.

The core under study is the command-execution engine
(`src/executor/executor.go`) and the asynchronous webhook-processing
pipeline (`src/unnamed/part_003`, the current revision of
`http/webhook.go`, together with `src/config/config.go`).

Modelling conventions:
* Operating-system effects (running a shell command, reading a directory,
  writing to the database, delivering a chat notification) are passed in
  as oracle parameters describing the outcome of the external call; the
  embedded functions reproduce the Go control flow over those outcomes.
* Go `time.Time` values are modelled as `Int` nanosecond readings of the
  process clock; Go's monotonic-clock guarantee (a later `time.Now()`
  reading is never smaller) appears as an explicit hypothesis where needed.
* Goroutine nondeterminism in the async phase is modelled by quantifying
  over the completion order: the mutex-guarded appends produce the results
  of the non-empty async commands in some arbitrary permutation.
* Go strings are modelled as Lean `String`s; Go's byte indexing is
  modelled as character indexing (all claim inputs are single-byte).
-/

namespace GithubSentry

/-- Embedding of `executor.ExecutionResult`: the result of executing one
script or command (`src/executor/executor.go` lines 16-24). -/
structure ExecutionResult where
  scriptName : String
  success : Bool
  output : String
  error : String
  startTime : Int
  endTime : Int
  duration : Int
  deriving Repr, DecidableEq

/-- Outcome of one operating-system command invocation, as observed by
`cmd.CombinedOutput()`: the captured combined output, and `some e` when the
command exited non-zero or failed to launch (with `e` the Go error text),
`none` on success. -/
structure CommandOutcome where
  output : String
  err : Option String
  deriving Repr, DecidableEq

/-- Embedding of `executor.executeCommand` (`src/executor/executor.go`
lines 158-198).  The invocation itself is external: `outcome` is what
`CombinedOutput` returned, and `startTime`/`endTime` are the two
`time.Now()` readings taken immediately before and after the invocation.
The function reproduces the result construction and classification. -/
def executeCommand (command : String) (outcome : CommandOutcome)
    (startTime endTime : Int) : ExecutionResult :=
  let duration := endTime - startTime
  let base : ExecutionResult :=
    { scriptName := command
      success := false
      output := outcome.output
      error := ""
      startTime := startTime
      endTime := endTime
      duration := duration }
  match outcome.err with
  | some e =>
      { base with
        success := false
        error := e
        output := if base.output = "" then e else base.output }
  | none => { base with success := true }

/-- Embedding of the environment construction at the top of
`ExecuteCommands` (`src/executor/executor.go` lines 33-36): the ambient
environment extended with the branch and repository variables. -/
def buildEnv (ambient : List String) (branch repoName : String) : List String :=
  ambient ++
    ["GITHUB_BRANCH=" ++ branch,
     "GITHUB_REPO=" ++ repoName,
     "GITHUB_REPOSITORY=" ++ repoName]

/-- Sequential phase of `ExecuteCommands` (`src/executor/executor.go`
lines 38-50): run each non-empty command in order, stop on first failure.
Returns the accumulated results, the trace of commands actually passed to
`executeCommand` (an instrumentation of the invocations, which the Go
function does not return), and the error of the first failing command if
any (`fmt.Errorf("command failed: %s - %s", ...)`). -/
def execSequential (run : String → ExecutionResult) :
    List String → List ExecutionResult × List String × Option String
  | [] => ([], [], none)
  | cmd :: rest =>
    if cmd = "" then execSequential run rest
    else
      let result := run cmd
      if result.success then
        let (rs, inv, e) := execSequential run rest
        (result :: rs, cmd :: inv, e)
      else
        ([result], [cmd],
          some ("command failed: " ++ result.scriptName ++ " - " ++ result.error))

/-- Embedding of `executor.ExecuteCommands` (`src/executor/executor.go`
lines 29-86).  `run` is the invocation oracle (`executeCommand` applied to
the outcome the operating system produces for that command text).
`asyncFinishOrder` is the order in which the concurrent async tasks
finished; the mutex-guarded appends collect one result per launched task,
so it must be a permutation of the non-empty async commands (stated as a
hypothesis of the theorems).  Returns the aggregated results (sequential
results first, async results in completion order), the trace of invoked
commands, and the sequential-phase error if any. -/
def ExecuteCommands (run : String → ExecutionResult)
    (sequentialCommands asyncCommands asyncFinishOrder : List String) :
    List ExecutionResult × List String × Option String :=
  match execSequential run sequentialCommands with
  | (results, invoked, some e) => (results, invoked, some e)
  | (results, invoked, none) =>
      if asyncCommands.length > 0 then
        (results ++ asyncFinishOrder.map run, invoked ++ asyncFinishOrder, none)
      else
        (results, invoked, none)

/-- Helper: the sequential phase over a prefix of successful non-empty
commands followed by a failing non-empty command runs exactly the prefix
and the failing command, then stops. -/
lemma execSequential_stop (run : String → ExecutionResult) :
    ∀ (pre : List String) (c : String) (post : List String),
      (∀ p ∈ pre, p ≠ "") → (∀ p ∈ pre, (run p).success = true) →
      c ≠ "" → (run c).success = false →
      execSequential run (pre ++ c :: post) =
        (pre.map run ++ [run c], pre ++ [c],
          some ("command failed: " ++ (run c).scriptName ++ " - " ++ (run c).error))
  | [], c, post, _, _, hc, hfail => by
      simp [execSequential, hc, hfail]
  | p :: pre, c, post, hne, hsucc, hc, hfail => by
      have hp : p ≠ "" := hne p (by simp)
      have hps : (run p).success = true := hsucc p (by simp)
      have ih := execSequential_stop run pre c post
        (fun x hx => hne x (by simp [hx])) (fun x hx => hsucc x (by simp [hx])) hc hfail
      simp [execSequential, hp, hps, ih]

/-- Helper: the error returned by `ExecuteCommands` is exactly the error of
its sequential phase (the async phase never sets the error). -/
lemma ExecuteCommands_err_eq (run : String → ExecutionResult)
    (seq async ord : List String) :
    (ExecuteCommands run seq async ord).2.2 = (execSequential run seq).2.2 := by
  rcases hs : execSequential run seq with ⟨rs, inv, e⟩
  cases e <;> by_cases hl : async.length > 0 <;> simp [ExecuteCommands, hs, hl]

/-- Helper: when the sequential phase succeeds, the aggregate result list is
the sequential results followed by the async results in completion order. -/
lemma ExecuteCommands_results_of_none (run : String → ExecutionResult)
    (seq async ord : List String)
    (hord : ord.Perm (async.filter (fun c => c ≠ "")))
    (hnone : (execSequential run seq).2.2 = none) :
    (ExecuteCommands run seq async ord).1 =
      (execSequential run seq).1 ++ ord.map run := by
  rcases hs : execSequential run seq with ⟨rs, inv, e⟩
  rw [hs] at hnone
  simp only at hnone
  subst hnone
  by_cases hl : async.length > 0
  · simp [ExecuteCommands, hs, hl]
  · have hasync : async = [] := List.length_eq_zero.mp (Nat.eq_zero_of_not_pos hl)
    subst hasync
    have hord' : ord = [] := List.perm_nil.mp (by simpa using hord)
    subst hord'
    simp [ExecuteCommands, hs]

/-- Helper: the sequential phase reports an error exactly when one of its
results is a failure. -/
lemma execSequential_err_isSome_iff (run : String → ExecutionResult) :
    ∀ l : List String,
      (execSequential run l).2.2.isSome ↔
        ∃ r ∈ (execSequential run l).1, r.success = false
  | [] => by simp [execSequential]
  | cmd :: rest => by
      rcases hres : execSequential run rest with ⟨rs, inv, e⟩
      have ih := execSequential_err_isSome_iff run rest
      rw [hres] at ih
      simp only at ih
      by_cases hcmd : cmd = ""
      · simpa [execSequential, hcmd, hres] using ih
      · cases hs : (run cmd).success
        · simp [execSequential, hcmd, hs]
        · simp [execSequential, hcmd, hs, hres, ih]

/-- C1: for every list of sequential commands (each non-empty) and any
async command set, if the i-th sequential command fails then
`ExecuteCommands` never invokes sequential commands i+1..n and never
invokes any async command (the invocation trace is exactly the prefix and
the failing command), and the returned result list has exactly i entries,
the last with `Success = false`. -/
theorem c1_sequential_stop (run : String → ExecutionResult)
    (seq async ord pre post : List String) (c : String)
    (hseq : seq = pre ++ c :: post)
    (hne : ∀ x ∈ seq, x ≠ "")
    (hpre : ∀ p ∈ pre, (run p).success = true)
    (hc : (run c).success = false) :
    ExecuteCommands run seq async ord =
      (pre.map run ++ [run c], pre ++ [c],
        some ("command failed: " ++ (run c).scriptName ++ " - " ++ (run c).error)) ∧
    (pre.map run ++ [run c]).length = pre.length + 1 ∧
    (pre.map run ++ [run c]).getLast? = some (run c) ∧
    (run c).success = false := by
  subst hseq
  have hstop := execSequential_stop run pre c post
    (fun x hx => hne x (List.mem_append_left _ hx))
    hpre (hne c (by simp)) hc
  refine ⟨?_, by simp, by simp, hc⟩
  simp [ExecuteCommands, hstop]

/-- Concrete oracle for the C1 witness: every command succeeds except
`exit 1`, which fails with `exit status 1`. -/
def c1runExample : String → ExecutionResult := fun cmd =>
  executeCommand cmd
    ⟨"", if cmd = "exit 1" then some "exit status 1" else none⟩ 0 1

/-- Witness for C1 at a concrete input. -/
theorem c1_sequential_stop_witness :
    (ExecuteCommands c1runExample
      ["echo build", "exit 1", "echo after"] ["async1"] ["async1"]).2.1 =
      ["echo build", "exit 1"] := by
  have h := c1_sequential_stop c1runExample
    ["echo build", "exit 1", "echo after"] ["async1"] ["async1"]
    ["echo build"] ["echo after"] "exit 1" rfl (by decide) (by decide) (by decide)
  rw [h.1]
  rfl

/-- C2: `ExecuteCommands` returns a non-nil error iff some sequential
command it ran produced `Success = false`; when the sequential phase
succeeds the error is nil and every async result (failing ones included)
is reported inside the successful aggregate return. -/
theorem c2_error_iff_sequential_failure (run : String → ExecutionResult)
    (seq async ord : List String)
    (hord : ord.Perm (async.filter (fun c => c ≠ ""))) :
    ((ExecuteCommands run seq async ord).2.2.isSome ↔
      ∃ r ∈ (execSequential run seq).1, r.success = false) ∧
    ((execSequential run seq).2.2 = none →
      (ExecuteCommands run seq async ord).2.2 = none ∧
      (ExecuteCommands run seq async ord).1 =
        (execSequential run seq).1 ++ ord.map run) := by
  refine ⟨?_, fun hnone => ⟨?_, ExecuteCommands_results_of_none run seq async ord hord hnone⟩⟩
  · rw [ExecuteCommands_err_eq]
    exact execSequential_err_isSome_iff run seq
  · rw [ExecuteCommands_err_eq]
    exact hnone

/-- Witness for C2 at a concrete input: one failing async command, empty
sequential list, error is nil. -/
theorem c2_error_iff_sequential_failure_witness :
    (ExecuteCommands c1runExample ["echo build"] ["exit 1"] ["exit 1"]).2.2 = none := by
  have h := c2_error_iff_sequential_failure c1runExample
    ["echo build"] ["exit 1"] ["exit 1"] (by decide)
  exact (h.2 (by decide)).1

/-- C3: with no sequential commands and a non-empty-command async set of
size k, `ExecuteCommands` returns exactly k results whose command names
are a permutation of the input async commands, for every completion order
of the concurrent tasks, with a nil error. -/
theorem c3_async_set_equality (run : String → ExecutionResult)
    (async ord : List String)
    (hrun : ∀ c, (run c).scriptName = c)
    (hne : ∀ a ∈ async, a ≠ "")
    (hord : ord.Perm async) :
    (ExecuteCommands run [] async ord).1.length = async.length ∧
    ((ExecuteCommands run [] async ord).1.map (fun r => r.scriptName)).Perm async ∧
    (ExecuteCommands run [] async ord).2.2 = none := by
  have hmap : ∀ l : List String, (l.map run).map (fun r => r.scriptName) = l := by
    intro l
    induction l with
    | nil => rfl
    | cons a l ih => simp [hrun, ih]
  by_cases hl : async.length > 0
  · have hres : (ExecuteCommands run [] async ord).1 = ord.map run := by
      simp [ExecuteCommands, execSequential, hl]
    refine ⟨?_, ?_, ?_⟩
    · rw [hres, List.length_map]
      exact hord.length_eq
    · rw [hres, hmap]
      exact hord
    · simp [ExecuteCommands, execSequential, hl]
  · have hasync : async = [] := List.length_eq_zero.mp (Nat.eq_zero_of_not_pos hl)
    subst hasync
    have hord' : ord = [] := List.perm_nil.mp hord
    subst hord'
    simp [ExecuteCommands, execSequential]

/-- Concrete oracle for the C3 witness: every command succeeds. -/
def c3runExample : String → ExecutionResult := fun cmd =>
  executeCommand cmd ⟨"ok", none⟩ 0 2

/-- Witness for C3 at a concrete input with a completion order different
from the input order. -/
theorem c3_async_set_equality_witness :
    (ExecuteCommands c3runExample [] ["task a", "task b"] ["task b", "task a"]).1.length = 2 := by
  have h := c3_async_set_equality c3runExample ["task a", "task b"] ["task b", "task a"]
    (fun c => rfl) (by decide) (by decide)
  exact h.1

/-- C8: every result `executeCommand` produces records
`duration = endTime - startTime`, and `endTime ≥ startTime` given Go's
monotonic-clock guarantee that the second `time.Now()` reading is not
smaller than the first. -/
theorem c8_duration_relation (command : String) (outcome : CommandOutcome)
    (startTime endTime : Int) (hclock : startTime ≤ endTime) :
    (executeCommand command outcome startTime endTime).duration =
      (executeCommand command outcome startTime endTime).endTime -
        (executeCommand command outcome startTime endTime).startTime ∧
    (executeCommand command outcome startTime endTime).startTime ≤
      (executeCommand command outcome startTime endTime).endTime := by
  rcases outcome with ⟨o, e⟩
  cases e <;> exact ⟨rfl, hclock⟩

/-- Witness for C8 at a concrete input. -/
theorem c8_duration_relation_witness :
    (executeCommand "echo hi" ⟨"hi", none⟩ 0 5).duration =
      (executeCommand "echo hi" ⟨"hi", none⟩ 0 5).endTime -
        (executeCommand "echo hi" ⟨"hi", none⟩ 0 5).startTime ∧
    (executeCommand "echo hi" ⟨"hi", none⟩ 0 5).startTime ≤
      (executeCommand "echo hi" ⟨"hi", none⟩ 0 5).endTime :=
  c8_duration_relation "echo hi" ⟨"hi", none⟩ 0 5 (by decide)

/-- C9: a command invocation that exits non-zero or fails to launch yields
`Success = false`, `Error` set to the failure text, and `Output` equal to
the captured combined output unless that capture is empty, in which case
`Output` equals the error text; hence a failed result's output is non-empty
whenever the failure text is (which Go `exec` errors always are). -/
theorem c9_failure_classification (command output e : String)
    (startTime endTime : Int) :
    (executeCommand command ⟨output, some e⟩ startTime endTime).success = false ∧
    (executeCommand command ⟨output, some e⟩ startTime endTime).error = e ∧
    (executeCommand command ⟨output, some e⟩ startTime endTime).output =
      (if output = "" then e else output) ∧
    (e ≠ "" → (executeCommand command ⟨output, some e⟩ startTime endTime).output ≠ "") := by
  have hout : (executeCommand command ⟨output, some e⟩ startTime endTime).output =
      if output = "" then e else output := rfl
  refine ⟨rfl, rfl, hout, fun he => ?_⟩
  by_cases ho : output = ""
  · rw [hout, if_pos ho]
    exact he
  · rw [hout, if_neg ho]
    exact ho

/-- Witness for C9 at a concrete input: empty captured output, so the error
text is substituted and the output is non-empty. -/
theorem c9_failure_classification_witness :
    (executeCommand "false" ⟨"", some "exit status 1"⟩ 0 1).output ≠ "" :=
  (c9_failure_classification "false" "" "exit status 1" 0 1).2.2.2 (by decide)

/-! Pipeline orchestrator: the webhook handler and its background run
(`src/unnamed/part_003`, the current revision of `http/webhook.go`,
with the project schema of `src/config/config.go`). -/

/-- Embedding of `config.CommandsConfig` (`src/config/config.go`
lines 23-28): one configured project. -/
structure CommandsConfig where
  organization : String
  repo : String
  sequential : List String
  async : List String
  deriving Repr, DecidableEq

/-- Notification attempt, by `notify.NotificationStatus`
(started / success / failure); terminal attempts carry the composed
message. -/
inductive NotifyEvent where
  | started
  | success (message : String)
  | failure (message : String)
  deriving Repr, DecidableEq

/-- Which execution engine a run invoked: `ExecuteCommands` or the
deprecated `ExecuteScripts` fallback. -/
inductive EngineKind where
  | commands
  | scripts
  deriving Repr, DecidableEq

/-- Observable side call of a pipeline run: an engine invocation, a
`database.RecordExecution` call, or a notification attempt. -/
inductive PipelineEvent where
  | notify (e : NotifyEvent)
  | engineRun (kind : EngineKind)
  | record (scriptName status : String)
  deriving Repr, DecidableEq

/-- Embedding of the project lookup inside `processWebhookAsync`
(`src/unnamed/part_003` lines 432-441): iterate `cfg.Commands` and take
the first entry whose organization and repo both match.  Go map iteration
order is arbitrary, so the map is modelled as an association list in an
arbitrary order. -/
def lookupProject (commands : List (String × CommandsConfig))
    (orgName repoName : String) : Option (String × CommandsConfig) :=
  commands.find? (fun p => p.2.organization == orgName && p.2.repo == repoName)

/-- The `const maxOutputLen = 2000` of the failure-message construction. -/
def maxOutputLen : Nat := 2000

/-- Truncation step of the failure-message construction
(`src/unnamed/part_003` lines 518-522): output longer than `maxOutputLen`
is cut to its first `maxOutputLen` characters and the truncation marker is
appended (Go byte slicing modelled as character slicing). -/
def truncateOutput (output : String) : String :=
  if output.length > maxOutputLen then
    String.mk (output.data.take maxOutputLen) ++ "...(truncated)"
  else output

/-- Embedding of the failure-message construction (`src/unnamed/part_003`
lines 514-529): the commit message with the failure marker, plus a reason
block naming the first failed result, if any. -/
def buildFailureMessage (commitMessage : String)
    (results : List ExecutionResult) : String :=
  let base := commitMessage ++ " (FAILED)"
  match results.find? (fun r => !r.success) with
  | none => base
  | some r =>
      base ++ "\n\nFailure Reason:\n" ++
        "Script: " ++ r.scriptName ++ "\n" ++
        "Error: " ++ r.error ++ "\n" ++
        "Output:\n" ++ truncateOutput r.output

/-- Directory entry as returned by `os.ReadDir`: a name and a directory
flag. -/
structure DirEntry where
  name : String
  isDir : Bool
  deriving Repr, DecidableEq

/-- Decimal digit run for `goAtoi`: `none` on an empty string or any
non-digit character. -/
def parseDigits : List Char → Option Nat
  | [] => none
  | cs => cs.foldl (fun acc c =>
      match acc with
      | none => none
      | some n => if c.isDigit then some (n * 10 + (c.toNat - '0'.toNat)) else none)
      (some 0)

/-- Embedding of `strconv.Atoi` as used by `GetScripts`: an optional sign
followed by at least one decimal digit (integer overflow, impossible for
script names of sane length, is not modelled). -/
def goAtoi (s : String) : Option Int :=
  match s.data with
  | [] => none
  | '+' :: rest => (parseDigits rest).map (fun n => (n : Int))
  | '-' :: rest => (parseDigits rest).map (fun n => -(n : Int))
  | cs => (parseDigits cs).map (fun n => (n : Int))

/-- Suffix test for `.sh`, the script-file suffix `GetScripts` filters on
(`strings.HasSuffix(name, ".sh")`). -/
def hasShSuffix (cs : List Char) : Bool :=
  List.isSuffixOf ['.', 's', 'h'] cs

/-- Removal of the `.sh` suffix (`strings.TrimSuffix(name, ".sh")`, applied
only to names known to carry the suffix). -/
def trimShSuffix (cs : List Char) : List Char :=
  cs.take (cs.length - 3)

/-- Final path component (`filepath.Base`) of a joined script path: the
characters after the last separator. -/
def lastComponent (cs : List Char) : List Char :=
  cs.foldl (fun acc c => if c = '/' then [] else acc ++ [c]) []

/-- Numeric sort key `GetScripts` uses for a joined script path: `Atoi` of
the final path component with the `.sh` suffix removed, 0 when parsing
fails (Go discards the `Atoi` error in the comparator). -/
def scriptSortKey (path : String) : Int :=
  let base := lastComponent path.data
  (goAtoi (String.mk (trimShSuffix base))).getD 0

/-- Insertion of one path into a list kept nondecreasing by
`scriptSortKey`. -/
def insertByKey (x : String) : List String → List String
  | [] => [x]
  | y :: ys =>
      if scriptSortKey x ≤ scriptSortKey y then x :: y :: ys
      else y :: insertByKey x ys

/-- Numeric sort of the script paths (`sort.Slice` with `numI < numJ`;
the unstable Go sort is modelled as a stable insertion sort, one of the
orders it may produce). -/
def sortScripts : List String → List String
  | [] => []
  | x :: xs => insertByKey x (sortScripts xs)

/-- Embedding of `executor.GetScripts` (`src/executor/executor.go` lines
118-155) on the entries `os.ReadDir` returned: keep the non-directory
entries named `<number>.sh`, join them to the folder (`filepath.Join`
modelled as path concatenation), and sort them numerically. -/
def GetScripts (entries : List DirEntry) (scriptsFolder : String) : List String :=
  sortScripts (entries.filterMap (fun e =>
    if e.isDir then none
    else if !(hasShSuffix e.name.data) then none
    else
      match goAtoi (String.mk (trimShSuffix e.name.data)) with
      | none => none
      | some _ => some (scriptsFolder ++ "/" ++ e.name)))

/-- Script loop of `ExecuteScripts` (`src/executor/executor.go` lines
102-114): run each script in order, stop on the first failure.  Returns
the results, the invocation trace, and the error of the first failing
script (`fmt.Errorf("script %s failed: %s", ...)`). -/
def runScriptsSeq (runScript : String → ExecutionResult) :
    List String → List ExecutionResult × List String × Option String
  | [] => ([], [], none)
  | script :: rest =>
    let result := runScript script
    if result.success then
      let (rs, inv, e) := runScriptsSeq runScript rest
      (result :: rs, script :: inv, e)
    else
      ([result], [script],
        some ("script " ++ result.scriptName ++ " failed: " ++ result.error))

/-- Embedding of `executor.ExecuteScripts` (`src/executor/executor.go`
lines 92-115).  `readDir` is the outcome of `os.ReadDir` on the scripts
folder; `runScript` is the invocation oracle for `executeScript`. -/
def ExecuteScripts (runScript : String → ExecutionResult)
    (readDir : Except String (List DirEntry)) (scriptsFolder : String) :
    List ExecutionResult × List String × Option String :=
  match readDir with
  | .error e =>
      ([], [], some ("failed to get scripts: failed to read scripts folder: " ++ e))
  | .ok entries => runScriptsSeq runScript (GetScripts entries scriptsFolder)

/-- Persistence event for one execution result
(`database.RecordExecution` with status "success"/"failed",
`src/unnamed/part_003` lines 503-512 and 546-555). -/
def recordEvent (r : ExecutionResult) : PipelineEvent :=
  .record r.scriptName (if r.success then "success" else "failed")

/-- Embedding of `processWebhookAsync` (`src/unnamed/part_003` lines
426-570) as its trace of observable side calls (engine invocation,
per-result persistence calls, notification attempts).  `run`/`runScript`
are the command and script invocation oracles, `readDir` the
scripts-folder listing, `commands` the configured project map in its
arbitrary iteration order, `asyncFinishOrder` the completion order of the
async tasks.  `recordDelivery` and `notifyDelivery` model the errors the
persistence and notification transports return; the Go code only logs
them, so they do not influence the trace. -/
def processWebhookAsync (run runScript : String → ExecutionResult)
    (readDir : Except String (List DirEntry))
    (commands : List (String × CommandsConfig))
    (asyncFinishOrder : List String)
    (recordDelivery : String → Option String)
    (notifyDelivery : NotifyEvent → Option String)
    (commitMessage orgName repoName scriptsFolder : String) : List PipelineEvent :=
  match lookupProject commands orgName repoName with
  | none =>
      [.notify (.success (commitMessage ++ " (skipped - no commands configured)"))]
  | some (_, projectCommands) =>
      let useCommands :=
        projectCommands.sequential.length != 0 || projectCommands.async.length != 0
      let engineKind := if useCommands then EngineKind.commands else EngineKind.scripts
      let (results, _invoked, err) :=
        if useCommands then
          ExecuteCommands run projectCommands.sequential projectCommands.async
            asyncFinishOrder
        else
          ExecuteScripts runScript readDir scriptsFolder
      let records := results.map recordEvent
      match err with
      | some _ =>
          PipelineEvent.engineRun engineKind ::
            (records ++ [.notify (.failure (buildFailureMessage commitMessage results))])
      | none =>
          PipelineEvent.engineRun engineKind ::
            (records ++ [.notify (.success commitMessage)])

/-- Embedding of the `WebHook` handler from the point where the trigger is
accepted (a push to the staging branch with a head commit,
`src/unnamed/part_003` lines 402-422): attempt the "started" notification
(its delivery error is only logged), create the trigger record, and either
answer HTTP 500 or acknowledge with HTTP 200 and dispatch the background
run.  Returns the HTTP status, the response body, and the trace of
observable side calls of the whole run. -/
def webHookAccepted (run runScript : String → ExecutionResult)
    (readDir : Except String (List DirEntry))
    (commands : List (String × CommandsConfig))
    (asyncFinishOrder : List String)
    (recordDelivery : String → Option String)
    (notifyDelivery : NotifyEvent → Option String)
    (recordTrigger : Except String Int)
    (commitMessage orgName repoName scriptsFolder : String) :
    Nat × String × List PipelineEvent :=
  let startedEvents := [PipelineEvent.notify .started]
  match recordTrigger with
  | .error _ => (500, "failed to record trigger", startedEvents)
  | .ok _ =>
      (200, "webhook received",
        startedEvents ++
          processWebhookAsync run runScript readDir commands asyncFinishOrder
            recordDelivery notifyDelivery commitMessage orgName repoName scriptsFolder)

/-- A "started" notification attempt. -/
def isStarted : PipelineEvent → Bool
  | .notify .started => true
  | _ => false

/-- A terminal notification attempt: success or failure (the "skipped"
variant is a success message). -/
def isTerminal : PipelineEvent → Bool
  | .notify (.success _) => true
  | .notify (.failure _) => true
  | _ => false

/-- Helper: persistence events are not notification attempts. -/
lemma recordEvents_countP_zero (results : List ExecutionResult)
    (p : PipelineEvent → Bool) (hp : ∀ a b, p (.record a b) = false) :
    (results.map recordEvent).countP p = 0 := by
  induction results with
  | nil => rfl
  | cons r rs ih => simp [recordEvent, List.countP_cons, hp, ih]

/-- Helper: no persistence event is a "started" attempt. -/
lemma recordEvents_countP_isStarted (results : List ExecutionResult) :
    (results.map recordEvent).countP isStarted = 0 :=
  recordEvents_countP_zero results isStarted (fun _ _ => rfl)

/-- Helper: no persistence event is a terminal attempt. -/
lemma recordEvents_countP_isTerminal (results : List ExecutionResult) :
    (results.map recordEvent).countP isTerminal = 0 :=
  recordEvents_countP_zero results isTerminal (fun _ _ => rfl)

/-- Helper: an engine trace (engine invocation, persistence calls, one
closing notification) attempts no "started" notification. -/
lemma engineTrace_countP_isStarted (kind : EngineKind)
    (results : List ExecutionResult) (ev : NotifyEvent)
    (hev : isStarted (.notify ev) = false) :
    (PipelineEvent.engineRun kind ::
      (results.map recordEvent ++ [PipelineEvent.notify ev])).countP isStarted = 0 := by
  simp [List.countP_cons, List.countP_append, hev,
    recordEvents_countP_isStarted results]
  rfl

/-- Helper: an engine trace closed by a terminal notification attempts
exactly one terminal notification. -/
lemma engineTrace_countP_isTerminal (kind : EngineKind)
    (results : List ExecutionResult) (ev : NotifyEvent)
    (hev : isTerminal (.notify ev) = true) :
    (PipelineEvent.engineRun kind ::
      (results.map recordEvent ++ [PipelineEvent.notify ev])).countP isTerminal = 1 := by
  simp [List.countP_cons, List.countP_append, hev,
    recordEvents_countP_isTerminal results]
  rfl

/-- Helper: every background run attempts no "started" notification and
exactly one terminal notification, over every branch (skip, command
engine, scripts fallback, success or failure). -/
lemma processWebhookAsync_counts (run runScript : String → ExecutionResult)
    (readDir : Except String (List DirEntry))
    (commands : List (String × CommandsConfig)) (ord : List String)
    (recordDelivery : String → Option String)
    (notifyDelivery : NotifyEvent → Option String)
    (msg org repo folder : String) :
    (processWebhookAsync run runScript readDir commands ord
        recordDelivery notifyDelivery msg org repo folder).countP isStarted = 0 ∧
    (processWebhookAsync run runScript readDir commands ord
        recordDelivery notifyDelivery msg org repo folder).countP isTerminal = 1 := by
  cases hlook : lookupProject commands org repo with
  | none =>
      constructor <;> simp [processWebhookAsync, hlook, List.countP_cons] <;> rfl
  | some p =>
      rcases p with ⟨name, pc⟩
      cases huse : (pc.sequential.length != 0 || pc.async.length != 0) with
      | true =>
          rcases hE : ExecuteCommands run pc.sequential pc.async ord with ⟨results, inv, err⟩
          cases err with
          | some e =>
              constructor
              · simpa [processWebhookAsync, hlook, huse, hE] using
                  engineTrace_countP_isStarted .commands results
                    (.failure (buildFailureMessage msg results)) rfl
              · simpa [processWebhookAsync, hlook, huse, hE] using
                  engineTrace_countP_isTerminal .commands results
                    (.failure (buildFailureMessage msg results)) rfl
          | none =>
              constructor
              · simpa [processWebhookAsync, hlook, huse, hE] using
                  engineTrace_countP_isStarted .commands results (.success msg) rfl
              · simpa [processWebhookAsync, hlook, huse, hE] using
                  engineTrace_countP_isTerminal .commands results (.success msg) rfl
      | false =>
          rcases hE : ExecuteScripts runScript readDir folder with ⟨results, inv, err⟩
          cases err with
          | some e =>
              constructor
              · simpa [processWebhookAsync, hlook, huse, hE] using
                  engineTrace_countP_isStarted .scripts results
                    (.failure (buildFailureMessage msg results)) rfl
              · simpa [processWebhookAsync, hlook, huse, hE] using
                  engineTrace_countP_isTerminal .scripts results
                    (.failure (buildFailureMessage msg results)) rfl
          | none =>
              constructor
              · simpa [processWebhookAsync, hlook, huse, hE] using
                  engineTrace_countP_isStarted .scripts results (.success msg) rfl
              · simpa [processWebhookAsync, hlook, huse, hE] using
                  engineTrace_countP_isTerminal .scripts results (.success msg) rfl

/-- C4: for every dispatched pipeline run of an accepted trigger (a run
with a trigger record id), at most one "started" notification is
attempted, and exactly one terminal notification (success, failure, or the
"skipped" success variant) — never zero, never more than one. -/
theorem c4_notification_counts (run runScript : String → ExecutionResult)
    (readDir : Except String (List DirEntry))
    (commands : List (String × CommandsConfig)) (ord : List String)
    (recordDelivery : String → Option String)
    (notifyDelivery : NotifyEvent → Option String)
    (triggerID : Int) (msg org repo folder : String) :
    ((webHookAccepted run runScript readDir commands ord recordDelivery notifyDelivery
        (.ok triggerID) msg org repo folder).2.2.countP isStarted ≤ 1) ∧
    ((webHookAccepted run runScript readDir commands ord recordDelivery notifyDelivery
        (.ok triggerID) msg org repo folder).2.2.countP isTerminal = 1) := by
  have h := processWebhookAsync_counts run runScript readDir commands ord
    recordDelivery notifyDelivery msg org repo folder
  constructor
  · simp [webHookAccepted, List.countP_cons, List.countP_append, h.1]
    rfl
  · simp [webHookAccepted, List.countP_cons, List.countP_append, h.2]
    rfl

/-- C5: in the failure-message construction, a failed result's output of
length 3000 is truncated to exactly its first 2000 characters followed by
the truncation marker, and an output of length at most 2000 is included in
the message unmodified. -/
theorem c5_truncation (commitMessage : String) (r : ExecutionResult)
    (hfail : r.success = false) :
    buildFailureMessage commitMessage [r] =
      commitMessage ++ " (FAILED)" ++ "\n\nFailure Reason:\n" ++
        "Script: " ++ r.scriptName ++ "\n" ++
        "Error: " ++ r.error ++ "\n" ++
        "Output:\n" ++ truncateOutput r.output ∧
    (r.output.length = 3000 →
      truncateOutput r.output =
        String.mk (r.output.data.take 2000) ++ "...(truncated)" ∧
      (String.mk (r.output.data.take 2000)).length = 2000) ∧
    (r.output.length ≤ 2000 → truncateOutput r.output = r.output) := by
  refine ⟨?_, fun h3000 => ⟨?_, ?_⟩, fun hle => ?_⟩
  · simp [buildFailureMessage, List.find?, hfail]
  · have hgt : r.output.length > 2000 := by
      rw [h3000]; norm_num
    unfold truncateOutput maxOutputLen
    rw [if_pos hgt]
  · have hdata : r.output.data.length = 3000 := h3000
    show (r.output.data.take 2000).length = 2000
    rw [List.length_take, hdata]
    omega
  · have hngt : ¬ r.output.length > maxOutputLen := by
      simp only [maxOutputLen]
      omega
    simp [truncateOutput, hngt]

/-- Concrete 3000-character output for the C5 witness. -/
def c5outputExample : String := String.mk (List.replicate 3000 'a')

/-- Witness for C5 at a concrete input: a 3000-character output is cut to
its first 2000 characters plus the marker. -/
theorem c5_truncation_witness :
    truncateOutput c5outputExample =
      String.mk (List.replicate 2000 'a') ++ "...(truncated)" := by
  have h := c5_truncation "msg"
    { scriptName := "deploy.sh", success := false, output := c5outputExample,
      error := "exit status 1", startTime := 0, endTime := 1, duration := 1 } rfl
  have hlen : c5outputExample.length = 3000 := by
    show (List.replicate 3000 'a').length = 3000
    rw [List.length_replicate]
  have h2 := h.2.1 hlen
  have h3 : truncateOutput c5outputExample =
      String.mk (c5outputExample.data.take 2000) ++ "...(truncated)" := h2.1
  have h4 : c5outputExample.data.take 2000 = List.replicate 2000 'a' := by
    show (List.replicate 3000 'a').take 2000 = List.replicate 2000 'a'
    rw [List.take_replicate]
    norm_num
  rw [h3, h4]

/-- C6: when the repository identity matches no configured command entry,
the background run sends exactly one success notification whose message is
the commit message with the skipped marker appended, and the execution
engine is never invoked. -/
theorem c6_skip_path (run runScript : String → ExecutionResult)
    (readDir : Except String (List DirEntry))
    (commands : List (String × CommandsConfig)) (ord : List String)
    (recordDelivery : String → Option String)
    (notifyDelivery : NotifyEvent → Option String)
    (msg org repo folder : String)
    (hmiss : lookupProject commands org repo = none) :
    processWebhookAsync run runScript readDir commands ord
        recordDelivery notifyDelivery msg org repo folder =
      [PipelineEvent.notify (.success (msg ++ " (skipped - no commands configured)"))] ∧
    ∀ k, PipelineEvent.engineRun k ∉
      processWebhookAsync run runScript readDir commands ord
        recordDelivery notifyDelivery msg org repo folder := by
  have h : processWebhookAsync run runScript readDir commands ord
      recordDelivery notifyDelivery msg org repo folder =
      [PipelineEvent.notify (.success (msg ++ " (skipped - no commands configured)"))] := by
    simp [processWebhookAsync, hmiss]
  refine ⟨h, fun k => ?_⟩
  rw [h]
  simp

/-- Witness for C6 at a concrete input: one configured project for a
different repository identity. -/
theorem c6_skip_path_witness :
    processWebhookAsync c3runExample c3runExample (.ok [])
        [("proj", ⟨"someorg", "somerepo", ["echo x"], []⟩)] []
        (fun _ => none) (fun _ => none) "msg" "otherorg" "otherrepo" "scripts" =
      [PipelineEvent.notify (.success ("msg" ++ " (skipped - no commands configured)"))] :=
  (c6_skip_path c3runExample c3runExample (.ok [])
    [("proj", ⟨"someorg", "somerepo", ["echo x"], []⟩)] []
    (fun _ => none) (fun _ => none) "msg" "otherorg" "otherrepo" "scripts"
    (by decide)).1

/-- Counterexample to C7 as stated: an accepted trigger whose
trigger-record persistence call fails is answered with HTTP 500, not 200,
so the response is not independent of every downstream outcome. -/
theorem c7_counterexample :
    (webHookAccepted c3runExample c3runExample (.ok []) [] []
        (fun _ => none) (fun _ => none) (.error "connection refused")
        "msg" "org" "repo" "scripts").1 = 500 ∧
    (500 : Nat) ≠ 200 := by
  exact ⟨rfl, by decide⟩

/-- C7 (amended): for every accepted trigger whose trigger-record creation
succeeds, the webhook handler answers HTTP 200 "webhook received",
independent of every command execution result, every execution-record
persistence outcome, and every notification delivery outcome. -/
theorem c7_response_independence (run runScript : String → ExecutionResult)
    (readDir : Except String (List DirEntry))
    (commands : List (String × CommandsConfig)) (ord : List String)
    (recordDelivery : String → Option String)
    (notifyDelivery : NotifyEvent → Option String)
    (triggerID : Int) (msg org repo folder : String) :
    (webHookAccepted run runScript readDir commands ord recordDelivery notifyDelivery
        (.ok triggerID) msg org repo folder).1 = 200 ∧
    (webHookAccepted run runScript readDir commands ord recordDelivery notifyDelivery
        (.ok triggerID) msg org repo folder).2.1 = "webhook received" :=
  ⟨rfl, rfl⟩

/-- Helper: the script loop produces no results exactly when it was given
no scripts (a non-empty script list always yields at least its first
result, whether that script succeeds or fails). -/
lemma runScriptsSeq_results_nil_iff (runScript : String → ExecutionResult)
    (scripts : List String) :
    (runScriptsSeq runScript scripts).1 = [] ↔ scripts = [] := by
  cases scripts with
  | nil => simp [runScriptsSeq]
  | cons s rest =>
      rcases h : runScriptsSeq runScript rest with ⟨rs, inv, e⟩
      cases hs : (runScript s).success <;> simp [runScriptsSeq, h, hs]

/-- Helper: when every script succeeds, the script loop runs all of them
and reports no error. -/
lemma runScriptsSeq_all_success (runScript : String → ExecutionResult) :
    ∀ scripts : List String, (∀ s ∈ scripts, (runScript s).success = true) →
      (runScriptsSeq runScript scripts).2.1 = scripts ∧
      (runScriptsSeq runScript scripts).2.2 = none
  | [], _ => by simp [runScriptsSeq]
  | s :: rest, h => by
      have hs : (runScript s).success = true := h s (by simp)
      have ih := runScriptsSeq_all_success runScript rest (fun x hx => h x (by simp [hx]))
      rcases hres : runScriptsSeq runScript rest with ⟨rs, inv, e⟩
      rw [hres] at ih
      simp only at ih
      simp [runScriptsSeq, hs, hres, ih.1, ih.2]

/-- C10 (amended): when the matched project's sequential and async command
lists are both empty, the background run does not take the skip path: it
falls back to the deprecated scripts engine, executing the numerically
named `.sh` scripts listed in the configured scripts folder (all of them
when none fails); the run returns zero results exactly when the folder
lists no such script. -/
theorem c10_scripts_fallback (run runScript : String → ExecutionResult)
    (entries : List DirEntry) (commands : List (String × CommandsConfig))
    (ord : List String)
    (recordDelivery : String → Option String)
    (notifyDelivery : NotifyEvent → Option String)
    (msg org repo folder name : String) (pc : CommandsConfig)
    (hfound : lookupProject commands org repo = some (name, pc))
    (hseq : pc.sequential = []) (hasync : pc.async = []) :
    processWebhookAsync run runScript (.ok entries) commands ord
        recordDelivery notifyDelivery msg org repo folder =
      PipelineEvent.engineRun .scripts ::
        ((ExecuteScripts runScript (.ok entries) folder).1.map recordEvent ++
          [match (ExecuteScripts runScript (.ok entries) folder).2.2 with
           | some _ => PipelineEvent.notify (.failure
               (buildFailureMessage msg (ExecuteScripts runScript (.ok entries) folder).1))
           | none => PipelineEvent.notify (.success msg)]) ∧
    ((∀ s ∈ GetScripts entries folder, (runScript s).success = true) →
      (ExecuteScripts runScript (.ok entries) folder).2.1 =
        GetScripts entries folder) ∧
    ((ExecuteScripts runScript (.ok entries) folder).1 = [] ↔
      GetScripts entries folder = []) := by
  refine ⟨?_, fun hall => ?_, ?_⟩
  · have huse : (pc.sequential.length != 0 || pc.async.length != 0) = false := by
      simp [hseq, hasync]
    rcases hE : ExecuteScripts runScript (.ok entries) folder with ⟨results, inv, err⟩
    cases err with
    | some e => simp [processWebhookAsync, hfound, huse, hE]
    | none => simp [processWebhookAsync, hfound, huse, hE]
  · exact (runScriptsSeq_all_success runScript (GetScripts entries folder) hall).1
  · exact runScriptsSeq_results_nil_iff runScript (GetScripts entries folder)

/-- Witness for C10 (amended) at a concrete input: one numerically named
script in the folder is found and executed by the fallback. -/
theorem c10_scripts_fallback_witness :
    (ExecuteScripts c3runExample (.ok [⟨"001.sh", false⟩]) "scripts").2.1 =
      GetScripts [⟨"001.sh", false⟩] "scripts" := by
  have h := c10_scripts_fallback c3runExample c3runExample [⟨"001.sh", false⟩]
    [("proj", ⟨"org", "repo", [], []⟩)] [] (fun _ => none) (fun _ => none)
    "msg" "org" "repo" "scripts" "proj" ⟨"org", "repo", [], []⟩
    (by decide) rfl rfl
  exact h.2.1 (by decide)

/-- Counterexample to C10 as stated: with a matched project whose command
lists are both empty and a scripts folder listing no entries, the fallback
path runs but produces zero results (no persisted executions), refuting
"does not return zero results". -/
theorem c10_counterexample :
    (ExecuteScripts c3runExample (.ok []) "scripts").1 = [] ∧
    processWebhookAsync c3runExample c3runExample (.ok [])
        [("proj", ⟨"org", "repo", [], []⟩)] [] (fun _ => none) (fun _ => none)
        "msg" "org" "repo" "scripts" =
      [PipelineEvent.engineRun .scripts, PipelineEvent.notify (.success "msg")] := by
  exact ⟨rfl, by decide⟩

end GithubSentry
